import Mathlib

/-!
Verification of the in-memory short-key service (pkg/shortservice, middleware.go).

The embedding models Go strings as byte lists (List Nat), the Go map
m : map[string]string as an association list with first-match lookup, and
translates the source functions directly:

- digestOf: MD5 of the value followed by base64.RawURLEncoding (URL-safe
  alphabet, no padding), as computed in inMemService.Create before the loop.
- probe: the body of the Create probe loop.  The Go loop `for { ... }` first
  checks `offset+size > len(vHash)` and on overflow does `size++; offset = 0`
  without re-checking, then slices `vHash[offset : offset+size]`; if the
  grown size exceeds the digest length that slice is out of range and the Go
  runtime panics.  That panic is modelled by the InternalFatal outcome, a
  fatal result distinct from the two domain errors.
- Create, Lookup: the exported methods, including the maxLen guards.
  Both return the resulting store so that absence of mutation is provable.
  (The hasher.Write error branch in Create is unreachable: md5.Write never
  fails, so it is not modelled.)
-/

def M32 : Nat := 4294967296

def mask32 : Nat := 4294967295

def rotl32 (x s : Nat) : Nat := ((x <<< s) ||| (x >>> (32 - s))) % M32

def md5K : List Nat :=
  [0xd76aa478, 0xe8c7b756, 0x242070db, 0xc1bdceee, 0xf57c0faf, 0x4787c62a,
   0xa8304613, 0xfd469501, 0x698098d8, 0x8b44f7af, 0xffff5bb1, 0x895cd7be,
   0x6b901122, 0xfd987193, 0xa679438e, 0x49b40821, 0xf61e2562, 0xc040b340,
   0x265e5a51, 0xe9b6c7aa, 0xd62f105d, 0x02441453, 0xd8a1e681, 0xe7d3fbc8,
   0x21e1cde6, 0xc33707d6, 0xf4d50d87, 0x455a14ed, 0xa9e3e905, 0xfcefa3f8,
   0x676f02d9, 0x8d2a4c8a, 0xfffa3942, 0x8771f681, 0x6d9d6122, 0xfde5380c,
   0xa4beea44, 0x4bdecfa9, 0xf6bb4b60, 0xbebfbc70, 0x289b7ec6, 0xeaa127fa,
   0xd4ef3085, 0x04881d05, 0xd9d4d039, 0xe6db99e5, 0x1fa27cf8, 0xc4ac5665,
   0xf4292244, 0x432aff97, 0xab9423a7, 0xfc93a039, 0x655b59c3, 0x8f0ccc92,
   0xffeff47d, 0x85845dd1, 0x6fa87e4f, 0xfe2ce6e0, 0xa3014314, 0x4e0811a1,
   0xf7537e82, 0xbd3af235, 0x2ad7d2bb, 0xeb86d391]

def md5S : List Nat :=
  [7,12,17,22,7,12,17,22,7,12,17,22,7,12,17,22,
   5,9,14,20,5,9,14,20,5,9,14,20,5,9,14,20,
   4,11,16,23,4,11,16,23,4,11,16,23,4,11,16,23,
   6,10,15,21,6,10,15,21,6,10,15,21,6,10,15,21]

def wsel (chunk : List Nat) (i : Nat) : Nat :=
  chunk.getD (4 * i) 0 + 256 * chunk.getD (4 * i + 1) 0 +
    65536 * chunk.getD (4 * i + 2) 0 + 16777216 * chunk.getD (4 * i + 3) 0

def md5Step (M : Nat → Nat) (st : Nat × Nat × Nat × Nat) (i : Nat) :
    Nat × Nat × Nat × Nat :=
  let A := st.1
  let B := st.2.1
  let C := st.2.2.1
  let D := st.2.2.2
  let F :=
    if i < 16 then (B &&& C) ||| ((mask32 ^^^ B) &&& D)
    else if i < 32 then (D &&& B) ||| ((mask32 ^^^ D) &&& C)
    else if i < 48 then B ^^^ C ^^^ D
    else C ^^^ (B ||| (mask32 ^^^ D))
  let g :=
    if i < 16 then i
    else if i < 32 then (5 * i + 1) % 16
    else if i < 48 then (3 * i + 5) % 16
    else (7 * i) % 16
  let tmp := (F + A + md5K.getD i 0 + M g) % M32
  (D, (B + rotl32 tmp (md5S.getD i 0)) % M32, B, C)

def md5Block (chunk : List Nat) (st : Nat × Nat × Nat × Nat) :
    Nat × Nat × Nat × Nat :=
  let r := (List.range 64).foldl (md5Step (wsel chunk)) st
  ((st.1 + r.1) % M32, (st.2.1 + r.2.1) % M32,
   (st.2.2.1 + r.2.2.1) % M32, (st.2.2.2 + r.2.2.2) % M32)

def md5Pad (msg : List Nat) : List Nat :=
  let z := (120 - ((msg.length + 1) % 64)) % 64
  let n := (msg.length * 8) % (2 ^ 64)
  msg ++ 128 :: List.replicate z 0 ++
    [n % 256, n / 2 ^ 8 % 256, n / 2 ^ 16 % 256, n / 2 ^ 24 % 256,
     n / 2 ^ 32 % 256, n / 2 ^ 40 % 256, n / 2 ^ 48 % 256, n / 2 ^ 56 % 256]

def wordLEBytes (x : Nat) : List Nat :=
  [x % 256, x / 256 % 256, x / 65536 % 256, x / 16777216 % 256]

def md5Bytes (msg : List Nat) : List Nat :=
  let padded := md5Pad msg
  let st := (List.range (padded.length / 64)).foldl
    (fun st i => md5Block ((padded.drop (64 * i)).take 64) st)
    (1732584193, 4023233417, 2562383102, 271733878)
  wordLEBytes st.1 ++ wordLEBytes st.2.1 ++ wordLEBytes st.2.2.1 ++ wordLEBytes st.2.2.2

def b64Char (n : Nat) : Nat :=
  if n < 26 then 65 + n
  else if n < 52 then 97 + (n - 26)
  else if n < 62 then 48 + (n - 52)
  else if n = 62 then 45
  else 95

def b64Encode : List Nat → List Nat
  | [] => []
  | [b0] => [b64Char (b0 / 4), b64Char (b0 % 4 * 16)]
  | [b0, b1] => [b64Char (b0 / 4), b64Char (b0 % 4 * 16 + b1 / 16), b64Char (b1 % 16 * 4)]
  | b0 :: b1 :: b2 :: rest =>
      b64Char (b0 / 4) :: b64Char (b0 % 4 * 16 + b1 / 16) ::
        b64Char (b1 % 16 * 4 + b2 / 64) :: b64Char (b2 % 64) :: b64Encode rest

def digestOf (v : List Nat) : List Nat := b64Encode (md5Bytes v)

def strBytes (s : String) : List Nat := s.data.map Char.toNat

inductive SvcError where
  | ErrMaxSizeExceeded : SvcError
  | ErrKeyNotFound : SvcError
  | InternalFatal : SvcError
deriving DecidableEq

abbrev Store := List (List Nat × List Nat)

def findKey : Store → List Nat → Option (List Nat)
  | [], _ => none
  | (k, v) :: rest, key => if k = key then some v else findKey rest key

def insertKey (m : Store) (k v : List Nat) : Store := (k, v) :: m

def maxLen : Nat := 2083

def minKeySize : Nat := 6

def probe (m : Store) (D v : List Nat) (size offset : Nat) :
    Except SvcError (List Nat) × Store :=
  if offset + size > D.length then
    if D.length < size + 1 then (Except.error SvcError.InternalFatal, m)
    else probe m D v (size + 1) 0
  else
    let k := (D.drop offset).take size
    match findKey m k with
    | some oldv =>
        if oldv = v then (Except.ok k, m)
        else probe m D v size (offset + 1)
    | none => (Except.ok k, insertKey m k v)
termination_by (D.length + 1 - size, D.length + 1 - offset)

def Create (m : Store) (v : List Nat) : Except SvcError (List Nat) × Store :=
  if v.length > maxLen then (Except.error SvcError.ErrMaxSizeExceeded, m)
  else probe m (digestOf v) v minKeySize 0

def Lookup (m : Store) (k : List Nat) : Except SvcError (List Nat) × Store :=
  if k.length > maxLen then (Except.error SvcError.ErrMaxSizeExceeded, m)
  else
    match findKey m k with
    | none => (Except.error SvcError.ErrKeyNotFound, m)
    | some v => (Except.ok v, m)

def createAll (m : Store) (vs : List (List Nat)) : Store :=
  vs.foldl (fun m v => (Create m v).2) m

def storeEquiv (m1 m2 : Store) : Prop := ∀ k, findKey m1 k = findKey m2 k

def goodStore (m : Store) : Prop :=
  ∀ k v, findKey m k = some v →
    minKeySize ≤ k.length ∧
      ∃ o, o + k.length ≤ (digestOf v).length ∧ k = ((digestOf v).drop o).take k.length

theorem md5Bytes_length (v : List Nat) : (md5Bytes v).length = 16 := by
  simp [md5Bytes, wordLEBytes]

theorem digestOf_length (v : List Nat) : (digestOf v).length = 22 := by
  simp [digestOf, md5Bytes, wordLEBytes, b64Encode]

theorem findKey_insertKey (m : Store) (k v key : List Nat) :
    findKey (insertKey m k v) key = if k = key then some v else findKey m key := rfl

theorem probe_store (m : Store) (D v : List Nat) (size offset : Nat) :
    ∀ r m2, probe m D v size offset = (r, m2) →
      (m2 = m ∧ (∀ k, r = Except.ok k → findKey m k = some v)) ∨
      (∃ k, r = Except.ok k ∧ findKey m k = none ∧ m2 = insertKey m k v) := by
  induction size, offset using probe.induct m D v with
  | case1 size offset h1 h2 =>
    intro r m2 hp
    rw [probe, if_pos h1, if_pos h2] at hp
    injection hp with hr hm
    subst hr; subst hm
    exact Or.inl ⟨rfl, fun k hk => Except.noConfusion hk⟩
  | case2 size offset h1 h2 ih =>
    intro r m2 hp
    rw [probe, if_pos h1, if_neg h2] at hp
    exact ih r m2 hp
  | case3 size offset h1 k hfind =>
    intro r m2 hp
    rw [probe, if_neg h1] at hp
    simp only [hfind, if_pos rfl] at hp
    injection hp with hr hm
    subst hr; subst hm
    exact Or.inl ⟨rfl, fun k2 hk2 => by
      injection hk2 with he; subst he; exact hfind⟩
  | case4 size offset h1 k oldv hfind hne ih =>
    intro r m2 hp
    rw [probe, if_neg h1] at hp
    simp only [hfind, if_neg hne] at hp
    exact ih r m2 hp
  | case5 size offset h1 k hfind =>
    intro r m2 hp
    rw [probe, if_neg h1] at hp
    simp only [hfind] at hp
    injection hp with hr hm
    subst hr; subst hm
    exact Or.inr ⟨k, rfl, hfind, rfl⟩

theorem probe_ok_key (m : Store) (D v : List Nat) (size offset : Nat) :
    ∀ k m2, probe m D v size offset = (Except.ok k, m2) →
      size ≤ k.length ∧ ∃ o, o + k.length ≤ D.length ∧ k = (D.drop o).take k.length := by
  induction size, offset using probe.induct m D v with
  | case1 size offset h1 h2 =>
    intro k m2 hp
    rw [probe, if_pos h1, if_pos h2] at hp
    injection hp with hr hm
    exact Except.noConfusion hr
  | case2 size offset h1 h2 ih =>
    intro k m2 hp
    rw [probe, if_pos h1, if_neg h2] at hp
    obtain ⟨hs, ho⟩ := ih k m2 hp
    exact ⟨Nat.le_of_succ_le hs, ho⟩
  | case3 size offset h1 kc hfind =>
    intro k m2 hp
    rw [probe, if_neg h1] at hp
    simp only [hfind, if_pos rfl] at hp
    injection hp with hr hm
    injection hr with he
    subst he
    have hkc : kc = (D.drop offset).take size := rfl
    have hlen : kc.length = size := by
      rw [hkc, List.length_take, List.length_drop]
      omega
    refine ⟨le_of_eq hlen.symm, offset, ?_, ?_⟩
    · rw [hlen]; omega
    · rw [hlen]
  | case4 size offset h1 kc oldv hfind hne ih =>
    intro k m2 hp
    rw [probe, if_neg h1] at hp
    simp only [hfind, if_neg hne] at hp
    exact ih k m2 hp
  | case5 size offset h1 kc hfind =>
    intro k m2 hp
    rw [probe, if_neg h1] at hp
    simp only [hfind] at hp
    injection hp with hr hm
    injection hr with he
    subst he
    have hkc : kc = (D.drop offset).take size := rfl
    have hlen : kc.length = size := by
      rw [hkc, List.length_take, List.length_drop]
      omega
    refine ⟨le_of_eq hlen.symm, offset, ?_, ?_⟩
    · rw [hlen]; omega
    · rw [hlen]

theorem probe_result_class (m : Store) (D v : List Nat) (size offset : Nat) :
    ∀ r m2, probe m D v size offset = (r, m2) →
      (∃ k, r = Except.ok k) ∨ r = Except.error SvcError.InternalFatal := by
  induction size, offset using probe.induct m D v with
  | case1 size offset h1 h2 =>
    intro r m2 hp
    rw [probe, if_pos h1, if_pos h2] at hp
    injection hp with hr hm
    exact Or.inr hr.symm
  | case2 size offset h1 h2 ih =>
    intro r m2 hp
    rw [probe, if_pos h1, if_neg h2] at hp
    exact ih r m2 hp
  | case3 size offset h1 kc hfind =>
    intro r m2 hp
    rw [probe, if_neg h1] at hp
    simp only [hfind, if_pos rfl] at hp
    injection hp with hr hm
    exact Or.inl ⟨kc, hr.symm⟩
  | case4 size offset h1 kc oldv hfind hne ih =>
    intro r m2 hp
    rw [probe, if_neg h1] at hp
    simp only [hfind, if_neg hne] at hp
    exact ih r m2 hp
  | case5 size offset h1 kc hfind =>
    intro r m2 hp
    rw [probe, if_neg h1] at hp
    simp only [hfind] at hp
    injection hp with hr hm
    exact Or.inl ⟨kc, hr.symm⟩

theorem probe_retrace (m : Store) (D v : List Nat) (size offset : Nat) :
    ∀ k m1, probe m D v size offset = (Except.ok k, m1) →
      ∀ m2, (∀ key w, findKey m key = some w → findKey m2 key = some w) →
        findKey m2 k = some v → probe m2 D v size offset = (Except.ok k, m2) := by
  induction size, offset using probe.induct m D v with
  | case1 size offset h1 h2 =>
    intro k m1 hp
    rw [probe, if_pos h1, if_pos h2] at hp
    injection hp with hr hm
    exact Except.noConfusion hr
  | case2 size offset h1 h2 ih =>
    intro k m1 hp m2 hext hk
    rw [probe, if_pos h1, if_neg h2] at hp
    rw [probe, if_pos h1, if_neg h2]
    exact ih k m1 hp m2 hext hk
  | case3 size offset h1 kc hfind =>
    intro k m1 hp m2 hext hk
    rw [probe, if_neg h1] at hp
    simp only [hfind, if_pos rfl] at hp
    injection hp with hr hm
    injection hr with he
    subst he
    rw [probe, if_neg h1]
    simp [hk]
  | case4 size offset h1 kc oldv hfind hne ih =>
    intro k m1 hp m2 hext hk
    rw [probe, if_neg h1] at hp
    simp only [hfind, if_neg hne] at hp
    rw [probe, if_neg h1]
    have hfind2 : findKey m2 kc = some oldv := hext _ _ hfind
    simp only [hfind2, if_neg hne]
    exact ih k m1 hp m2 hext hk
  | case5 size offset h1 kc hfind =>
    intro k m1 hp m2 hext hk
    rw [probe, if_neg h1] at hp
    simp only [hfind] at hp
    injection hp with hr hm
    injection hr with he
    subst he
    rw [probe, if_neg h1]
    simp [hk]

theorem insert_equiv (m1 m2 : Store) (heq : storeEquiv m1 m2) (k v : List Nat) :
    storeEquiv (insertKey m1 k v) (insertKey m2 k v) := by
  intro key
  rw [findKey_insertKey, findKey_insertKey]
  by_cases h : k = key
  · rw [if_pos h, if_pos h]
  · rw [if_neg h, if_neg h]
    exact heq key

theorem probe_equiv (m1 m2 : Store) (heq : storeEquiv m1 m2) (D v : List Nat)
    (size offset : Nat) :
    (probe m1 D v size offset).1 = (probe m2 D v size offset).1 ∧
      storeEquiv (probe m1 D v size offset).2 (probe m2 D v size offset).2 := by
  induction size, offset using probe.induct m1 D v with
  | case1 size offset h1 h2 =>
    have e1 : probe m1 D v size offset = (Except.error SvcError.InternalFatal, m1) := by
      rw [probe, if_pos h1, if_pos h2]
    have e2 : probe m2 D v size offset = (Except.error SvcError.InternalFatal, m2) := by
      rw [probe, if_pos h1, if_pos h2]
    rw [e1, e2]
    exact ⟨rfl, heq⟩
  | case2 size offset h1 h2 ih =>
    have e1 : probe m1 D v size offset = probe m1 D v (size + 1) 0 := by
      rw [probe, if_pos h1, if_neg h2]
    have e2 : probe m2 D v size offset = probe m2 D v (size + 1) 0 := by
      rw [probe, if_pos h1, if_neg h2]
    rw [e1, e2]
    exact ih
  | case3 size offset h1 kc hfind =>
    have hfind2 : findKey m2 kc = some v := ((heq kc).symm).trans hfind
    have e1 : probe m1 D v size offset = (Except.ok kc, m1) := by
      rw [probe, if_neg h1]
      simp [hfind]
    have e2 : probe m2 D v size offset = (Except.ok kc, m2) := by
      rw [probe, if_neg h1]
      simp [hfind2]
    rw [e1, e2]
    exact ⟨rfl, heq⟩
  | case4 size offset h1 kc oldv hfind hne ih =>
    have hfind2 : findKey m2 kc = some oldv := ((heq kc).symm).trans hfind
    have e1 : probe m1 D v size offset = probe m1 D v size (offset + 1) := by
      rw [probe, if_neg h1]
      simp [hfind, hne]
    have e2 : probe m2 D v size offset = probe m2 D v size (offset + 1) := by
      rw [probe, if_neg h1]
      simp [hfind2, hne]
    rw [e1, e2]
    exact ih
  | case5 size offset h1 kc hfind =>
    have hfind2 : findKey m2 kc = none := ((heq kc).symm).trans hfind
    have e1 : probe m1 D v size offset = (Except.ok kc, insertKey m1 kc v) := by
      rw [probe, if_neg h1]
      simp [hfind]
    have e2 : probe m2 D v size offset = (Except.ok kc, insertKey m2 kc v) := by
      rw [probe, if_neg h1]
      simp [hfind2]
    rw [e1, e2]
    exact ⟨rfl, insert_equiv m1 m2 heq kc v⟩

theorem probe_fatal (m : Store) (D v : List Nat) (size offset : Nat) :
    ∀ m2, size ≤ D.length →
      probe m D v size offset = (Except.error SvcError.InternalFatal, m2) →
      (∃ w, findKey m D = some w ∧ w ≠ v) ∨
        (size = D.length ∧ D.length < offset + size) := by
  induction size, offset using probe.induct m D v with
  | case1 size offset h1 h2 =>
    intro m2 hs hp
    exact Or.inr ⟨by omega, by omega⟩
  | case2 size offset h1 h2 ih =>
    intro m2 hs hp
    rw [probe, if_pos h1, if_neg h2] at hp
    rcases ih m2 (by omega) hp with h | h
    · exact Or.inl h
    · exact absurd h.2 (by omega)
  | case3 size offset h1 kc hfind =>
    intro m2 hs hp
    rw [probe, if_neg h1] at hp
    simp only [hfind, if_pos rfl] at hp
    injection hp with hr hm
    exact Except.noConfusion hr
  | case4 size offset h1 kc oldv hfind hne ih =>
    intro m2 hs hp
    rw [probe, if_neg h1] at hp
    simp only [hfind, if_neg hne] at hp
    rcases ih m2 hs hp with h | h
    · exact Or.inl h
    · have hoff : offset = 0 := by omega
      have hsz : size = D.length := h.1
      have hkD : kc = D := by
        have hkc : kc = (D.drop offset).take size := rfl
        rw [hkc, hoff, List.drop_zero, hsz, List.take_length]
      refine Or.inl ⟨oldv, ?_, hne⟩
      rw [← hkD]
      exact hfind
  | case5 size offset h1 kc hfind =>
    intro m2 hs hp
    rw [probe, if_neg h1] at hp
    simp only [hfind] at hp
    injection hp with hr hm
    exact Except.noConfusion hr

theorem probe_preserve (m : Store) (D v : List Nat) (size offset : Nat)
    (r : Except SvcError (List Nat)) (m2 : Store)
    (hp : probe m D v size offset = (r, m2)) (key w : List Nat)
    (hw : findKey m key = some w) : findKey m2 key = some w := by
  rcases probe_store m D v size offset r m2 hp with ⟨hm, _⟩ | ⟨k, _, hnone, hm⟩
  · rw [hm]
    exact hw
  · rw [hm, findKey_insertKey]
    have hkk : k ≠ key := by
      intro he
      rw [he, hw] at hnone
      exact Option.noConfusion hnone
    rw [if_neg hkk]
    exact hw

theorem Create_preserve (m : Store) (v key w : List Nat)
    (hw : findKey m key = some w) : findKey (Create m v).2 key = some w := by
  unfold Create
  by_cases h : v.length > maxLen
  · rw [if_pos h]
    exact hw
  · rw [if_neg h]
    exact probe_preserve m (digestOf v) v minKeySize 0 _ _ rfl key w hw

theorem createAll_nil (m : Store) : createAll m [] = m := rfl

theorem createAll_cons (m : Store) (v : List Nat) (vs : List (List Nat)) :
    createAll m (v :: vs) = createAll (Create m v).2 vs := rfl

theorem createAll_preserve (vs : List (List Nat)) (m : Store) (key w : List Nat)
    (hw : findKey m key = some w) : findKey (createAll m vs) key = some w := by
  induction vs generalizing m with
  | nil => exact hw
  | cons v vs ih =>
    rw [createAll_cons]
    exact ih _ (Create_preserve m v key w hw)

theorem Create_ok_find (m m2 : Store) (v k : List Nat)
    (hc : Create m v = (Except.ok k, m2)) : findKey m2 k = some v := by
  unfold Create at hc
  by_cases hv : v.length > maxLen
  · rw [if_pos hv] at hc
    injection hc with hr hm
    exact Except.noConfusion hr
  · rw [if_neg hv] at hc
    rcases probe_store m (digestOf v) v minKeySize 0 _ _ hc with ⟨hm, hok⟩ | ⟨k2, hr, hnone, hm⟩
    · rw [hm]
      exact hok k rfl
    · injection hr with he
      subst he
      rw [hm, findKey_insertKey, if_pos rfl]

theorem Create_ok_key (m m2 : Store) (v k : List Nat)
    (hc : Create m v = (Except.ok k, m2)) :
    minKeySize ≤ k.length ∧ k.length ≤ 22 := by
  unfold Create at hc
  by_cases hv : v.length > maxLen
  · rw [if_pos hv] at hc
    injection hc with hr hm
    exact Except.noConfusion hr
  · rw [if_neg hv] at hc
    obtain ⟨hs, o, ho, hk⟩ := probe_ok_key m (digestOf v) v minKeySize 0 k m2 hc
    have hD := digestOf_length v
    exact ⟨hs, by omega⟩

theorem Create_ok_inlen (m m2 : Store) (v k : List Nat)
    (hc : Create m v = (Except.ok k, m2)) : v.length ≤ maxLen := by
  by_cases hv : v.length > maxLen
  · unfold Create at hc
    rw [if_pos hv] at hc
    injection hc with hr hm
    exact Except.noConfusion hr
  · omega

set_option maxRecDepth 200000

/-- C1: for every value v with length at most maxLen, a successful Create(v)
returning key k guarantees that an immediately following Lookup(k) on the
resulting store returns v with no error. -/
theorem roundtrip_Create_Lookup (m m2 : Store) (v k : List Nat)
    (hlen : v.length ≤ maxLen) (hc : Create m v = (Except.ok k, m2)) :
    Lookup m2 k = (Except.ok v, m2) := by
  have hfind : findKey m2 k = some v := Create_ok_find m m2 v k hc
  have hk22 : k.length ≤ 22 := (Create_ok_key m m2 v k hc).2
  have hmax : maxLen = 2083 := rfl
  unfold Lookup
  rw [if_neg (by omega : ¬k.length > maxLen)]
  rw [hfind]

/-- C1 witness: Create on the empty store with the value 12345 yields key
gnzLDu, and Lookup on that key returns the value. -/
theorem roundtrip_Create_Lookup_witness :
    Lookup [(strBytes "gnzLDu", strBytes "12345")] (strBytes "gnzLDu") =
      (Except.ok (strBytes "12345"), [(strBytes "gnzLDu", strBytes "12345")]) :=
  roundtrip_Create_Lookup [] [(strBytes "gnzLDu", strBytes "12345")]
    (strBytes "12345") (strBytes "gnzLDu") (by decide)
    (by
      have hd : digestOf (strBytes "12345") = strBytes "gnzLDuqKcGxMNKFokfhOew" := by decide
      rw [Create]
      rw [if_neg (show (List.length (strBytes "12345") > maxLen) = False from by decide).mp]
      rw [hd, probe]
      rfl)

/-- C2: for distinct values v1 and v2, if Create(v1) succeeds with key k1 and,
after any further sequence of Creates, Create(v2) succeeds with key k2, then
the keys differ: keys never collide across distinct values. -/
theorem Create_collision_safety (m m1 m3 : Store) (v1 v2 k1 k2 : List Nat)
    (vs : List (List Nat)) (hne : v1 ≠ v2)
    (h1 : Create m v1 = (Except.ok k1, m1))
    (h2 : Create (createAll m1 vs) v2 = (Except.ok k2, m3)) : k1 ≠ k2 := by
  have hf1 : findKey m1 k1 = some v1 := Create_ok_find m m1 v1 k1 h1
  have hf1b : findKey (createAll m1 vs) k1 = some v1 :=
    createAll_preserve vs m1 k1 v1 hf1
  intro hkk
  subst hkk
  unfold Create at h2
  by_cases hv : v2.length > maxLen
  · rw [if_pos hv] at h2
    injection h2 with hr hm
    exact Except.noConfusion hr
  · rw [if_neg hv] at h2
    rcases probe_store (createAll m1 vs) (digestOf v2) v2 minKeySize 0 _ _ h2 with
      ⟨hm, hok⟩ | ⟨kk, hr, hnone, hm⟩
    · have hf2 := hok k1 rfl
      rw [hf1b] at hf2
      injection hf2 with he
      exact hne he
    · injection hr with he
      subst he
      rw [hf1b] at hnone
      exact Option.noConfusion hnone

/-- C2 witness: the keys issued for the distinct values 12345 and a differ. -/
theorem Create_collision_safety_witness : strBytes "gnzLDu" ≠ strBytes "DMF1uc" :=
  Create_collision_safety [] [(strBytes "gnzLDu", strBytes "12345")]
    [(strBytes "DMF1uc", strBytes "a"), (strBytes "gnzLDu", strBytes "12345")]
    (strBytes "12345") (strBytes "a") (strBytes "gnzLDu") (strBytes "DMF1uc") []
    (by decide)
    (by
      have hd : digestOf (strBytes "12345") = strBytes "gnzLDuqKcGxMNKFokfhOew" := by decide
      rw [Create]
      rw [if_neg (show (List.length (strBytes "12345") > maxLen) = False from by decide).mp]
      rw [hd, probe]
      rfl)
    (by
      have hd : digestOf (strBytes "a") = strBytes "DMF1ucDxtqgxw5niaXcmYQ" := by decide
      show Create [(strBytes "gnzLDu", strBytes "12345")] (strBytes "a") =
        (Except.ok (strBytes "DMF1uc"),
         [(strBytes "DMF1uc", strBytes "a"), (strBytes "gnzLDu", strBytes "12345")])
      rw [Create]
      rw [if_neg (show (List.length (strBytes "a") > maxLen) = False from by decide).mp]
      rw [hd, probe]
      rfl)

/-- C3: a second Create of the same value, after any intervening sequence of
Creates, returns the first key again, reports no error, and leaves the
mapping unchanged. -/
theorem Create_idempotent (m m1 : Store) (v k1 : List Nat) (vs : List (List Nat))
    (h1 : Create m v = (Except.ok k1, m1)) :
    Create (createAll m1 vs) v = (Except.ok k1, createAll m1 vs) := by
  have hlen : v.length ≤ maxLen := Create_ok_inlen m m1 v k1 h1
  have hf1 : findKey m1 k1 = some v := Create_ok_find m m1 v k1 h1
  have hf2 : findKey (createAll m1 vs) k1 = some v :=
    createAll_preserve vs m1 k1 v hf1
  unfold Create at h1 ⊢
  rw [if_neg (by omega : ¬v.length > maxLen)] at h1 ⊢
  apply probe_retrace m (digestOf v) v minKeySize 0 k1 m1 h1
  · intro key w hw
    have hw1 : findKey m1 key = some w :=
      probe_preserve m (digestOf v) v minKeySize 0 _ _ h1 key w hw
    exact createAll_preserve vs m1 key w hw1
  · exact hf2

/-- C3 witness: re-creating 12345 returns gnzLDu again without mutation. -/
theorem Create_idempotent_witness :
    Create (createAll [(strBytes "gnzLDu", strBytes "12345")] []) (strBytes "12345") =
      (Except.ok (strBytes "gnzLDu"),
       createAll [(strBytes "gnzLDu", strBytes "12345")] []) :=
  Create_idempotent [] [(strBytes "gnzLDu", strBytes "12345")]
    (strBytes "12345") (strBytes "gnzLDu") []
    (by
      have hd : digestOf (strBytes "12345") = strBytes "gnzLDuqKcGxMNKFokfhOew" := by decide
      rw [Create]
      rw [if_neg (show (List.length (strBytes "12345") > maxLen) = False from by decide).mp]
      rw [hd, probe]
      rfl)

/-- C4: for every in-bounds value the probe loop terminates with a key of at
most the digest length (22), or, when even the full 22-character digest is
already bound to a different value, Create aborts with the fatal internal
outcome (the modelled slice-bounds panic), which is distinct from the two
domain errors, leaving the mapping unchanged. -/
theorem Create_probe_outcome (m : Store) (v : List Nat) (hlen : v.length ≤ maxLen) :
    ((∃ k m2, Create m v = (Except.ok k, m2) ∧ k.length ≤ (digestOf v).length) ∨
      (Create m v = (Except.error SvcError.InternalFatal, m) ∧
        ∃ w, findKey m (digestOf v) = some w ∧ w ≠ v)) ∧
    (digestOf v).length = 22 := by
  refine ⟨?_, digestOf_length v⟩
  unfold Create
  rw [if_neg (by omega : ¬v.length > maxLen)]
  obtain ⟨r, m2, hp⟩ : ∃ r m2, probe m (digestOf v) v minKeySize 0 = (r, m2) :=
    ⟨_, _, rfl⟩
  rw [hp]
  rcases probe_result_class m (digestOf v) v minKeySize 0 r m2 hp with ⟨k, hk⟩ | hfatal
  · subst hk
    obtain ⟨hs, o, ho, hkk⟩ := probe_ok_key m (digestOf v) v minKeySize 0 k m2 hp
    exact Or.inl ⟨k, m2, rfl, by omega⟩
  · subst hfatal
    have hm : m2 = m := by
      rcases probe_store m (digestOf v) v minKeySize 0 _ _ hp with ⟨hm, _⟩ | ⟨k, hr, _, _⟩
      · exact hm
      · exact Except.noConfusion hr
    subst m2
    have h6 : minKeySize ≤ (digestOf v).length := by
      rw [digestOf_length]
      decide
    rcases probe_fatal m (digestOf v) v minKeySize 0 m h6 hp with hw | ⟨hsz, _⟩
    · exact Or.inr ⟨rfl, hw⟩
    · rw [digestOf_length] at hsz
      exact absurd hsz (by decide)

/-- C4 witness: instantiated at the empty store and the value 12345. -/
theorem Create_probe_outcome_witness :
    ((∃ k m2, Create [] (strBytes "12345") = (Except.ok k, m2) ∧
        k.length ≤ (digestOf (strBytes "12345")).length) ∨
      (Create [] (strBytes "12345") = (Except.error SvcError.InternalFatal, []) ∧
        ∃ w, findKey [] (digestOf (strBytes "12345")) = some w ∧ w ≠ strBytes "12345")) ∧
    (digestOf (strBytes "12345")).length = 22 :=
  Create_probe_outcome [] (strBytes "12345") (by decide)

/-- C5: Create is a function of the value and the extensional key-value
mapping only: started from stores with identical lookup behavior it returns
the same result and leaves stores with identical lookup behavior. -/
theorem Create_deterministic (m1 m2 : Store) (v : List Nat) (heq : storeEquiv m1 m2) :
    (Create m1 v).1 = (Create m2 v).1 ∧
      storeEquiv (Create m1 v).2 (Create m2 v).2 := by
  unfold Create
  by_cases hv : v.length > maxLen
  · rw [if_pos hv, if_pos hv]
    exact ⟨rfl, heq⟩
  · rw [if_neg hv, if_neg hv]
    exact probe_equiv m1 m2 heq (digestOf v) v minKeySize 0

/-- C5 witness: two different association-list representations of the same
mapping (one with a shadowed duplicate) receive the same Create result. -/
theorem Create_deterministic_witness :
    (Create [(strBytes "k", strBytes "v"), (strBytes "k", strBytes "w")]
        (strBytes "12345")).1 =
      (Create [(strBytes "k", strBytes "v")] (strBytes "12345")).1 ∧
      storeEquiv
        (Create [(strBytes "k", strBytes "v"), (strBytes "k", strBytes "w")]
          (strBytes "12345")).2
        (Create [(strBytes "k", strBytes "v")] (strBytes "12345")).2 :=
  Create_deterministic
    [(strBytes "k", strBytes "v"), (strBytes "k", strBytes "w")]
    [(strBytes "k", strBytes "v")] (strBytes "12345")
    (by
      intro key
      by_cases h : strBytes "k" = key
      · simp [findKey, h]
      · simp [findKey, h])

/-- C6: any input longer than maxLen is rejected by both Create and Lookup
with ErrMaxSizeExceeded, and the mapping is left unmodified. -/
theorem Create_Lookup_oversize (m : Store) (x : List Nat) (hx : maxLen < x.length) :
    Create m x = (Except.error SvcError.ErrMaxSizeExceeded, m) ∧
      Lookup m x = (Except.error SvcError.ErrMaxSizeExceeded, m) := by
  constructor
  · unfold Create
    rw [if_pos (by omega : x.length > maxLen)]
  · unfold Lookup
    rw [if_pos (by omega : x.length > maxLen)]

/-- C6 witness: a 2084-byte input is rejected by both operations on the empty
store, leaving it unchanged. -/
theorem Create_Lookup_oversize_witness :
    Create [] (List.replicate 2084 0) = (Except.error SvcError.ErrMaxSizeExceeded, []) ∧
      Lookup [] (List.replicate 2084 0) = (Except.error SvcError.ErrMaxSizeExceeded, []) :=
  Create_Lookup_oversize [] (List.replicate 2084 0)
    (by
      rw [List.length_replicate]
      decide)

/-- C7: for keys of length at most maxLen, Lookup fails with ErrKeyNotFound
exactly when the key is absent; when present it returns the stored value and
never changes the mapping. -/
theorem Lookup_not_found_spec (m : Store) (k : List Nat) (hk : k.length ≤ maxLen) :
    ((Lookup m k).1 = Except.error SvcError.ErrKeyNotFound ↔ findKey m k = none) ∧
      (∀ v, findKey m k = some v → Lookup m k = (Except.ok v, m)) ∧
      (Lookup m k).2 = m := by
  unfold Lookup
  rw [if_neg (by omega : ¬k.length > maxLen)]
  cases hf : findKey m k with
  | none => simp
  | some v =>
    refine ⟨by simp, ?_, rfl⟩
    intro w hw
    injection hw with he
    subst he
    rfl

/-- C7 witness: looking up an unknown key on the empty store fails with
ErrKeyNotFound and leaves the store unchanged. -/
theorem Lookup_not_found_spec_witness :
    ((Lookup [] (strBytes "nosuch")).1 = Except.error SvcError.ErrKeyNotFound ↔
        findKey [] (strBytes "nosuch") = none) ∧
      (∀ v, findKey [] (strBytes "nosuch") = some v →
        Lookup [] (strBytes "nosuch") = (Except.ok v, [])) ∧
      (Lookup [] (strBytes "nosuch")).2 = [] :=
  Lookup_not_found_spec [] (strBytes "nosuch") (by decide)

/-- C8: the digest is the 128-bit MD5 of the value encoded with the URL-safe
unpadded base-64 alphabet, always 22 characters; on an empty store
Create(12345) returns the key gnzLDu, the 6-character window at offset 0 of
that digest, and Lookup(gnzLDu) then returns 12345. -/
theorem Create_worked_example :
    (∀ v : List Nat, (digestOf v).length = 22) ∧
      digestOf (strBytes "12345") = strBytes "gnzLDuqKcGxMNKFokfhOew" ∧
      strBytes "gnzLDu" = ((digestOf (strBytes "12345")).drop 0).take minKeySize ∧
      Create [] (strBytes "12345") =
        (Except.ok (strBytes "gnzLDu"), [(strBytes "gnzLDu", strBytes "12345")]) ∧
      Lookup [(strBytes "gnzLDu", strBytes "12345")] (strBytes "gnzLDu") =
        (Except.ok (strBytes "12345"), [(strBytes "gnzLDu", strBytes "12345")]) := by
  refine ⟨digestOf_length, by decide, by decide, ?_, rfl⟩
  have hd : digestOf (strBytes "12345") = strBytes "gnzLDuqKcGxMNKFokfhOew" := by decide
  rw [Create]
  rw [if_neg (show (List.length (strBytes "12345") > maxLen) = False from by decide).mp]
  rw [hd, probe]
  rfl

/-- C10: every reachable store maps each key to a contiguous window of the
digest of its value, of length between minKeySize and the digest length; the
invariant holds for the empty store and is preserved by Create and Lookup,
and every key a successful Create returns has length between 6 and 22 and is
never rejected by the Lookup maxLen validation. -/
theorem KeyStore_invariant :
    goodStore [] ∧
      (∀ m v, goodStore m → goodStore (Create m v).2) ∧
      (∀ m k, goodStore m → goodStore (Lookup m k).2) ∧
      (∀ m v k m2, Create m v = (Except.ok k, m2) →
        minKeySize ≤ k.length ∧ k.length ≤ 22 ∧
          (Lookup m2 k).1 ≠ Except.error SvcError.ErrMaxSizeExceeded) := by
  refine ⟨?_, ?_, ?_, ?_⟩
  · intro k v hfind
    exact Option.noConfusion hfind
  · intro m v hgood
    unfold Create
    by_cases hv : v.length > maxLen
    · rw [if_pos hv]
      exact hgood
    · rw [if_neg hv]
      obtain ⟨r, m2, hp⟩ : ∃ r m2, probe m (digestOf v) v minKeySize 0 = (r, m2) :=
        ⟨_, _, rfl⟩
      rw [hp]
      rcases probe_store m (digestOf v) v minKeySize 0 r m2 hp with
        ⟨hm, _⟩ | ⟨k, hr, hnone, hm⟩
      · show goodStore m2
        rw [hm]
        exact hgood
      · show goodStore m2
        rw [hm]
        rw [hr] at hp
        intro key w hfind
        rw [findKey_insertKey] at hfind
        by_cases hke : k = key
        · rw [if_pos hke] at hfind
          injection hfind with he
          subst he
          subst hke
          obtain ⟨hs, o, ho, hkk⟩ := probe_ok_key m (digestOf v) v minKeySize 0 k m2 hp
          exact ⟨hs, o, ho, hkk⟩
        · rw [if_neg hke] at hfind
          exact hgood key w hfind
  · intro m k hgood
    unfold Lookup
    by_cases hk : k.length > maxLen
    · rw [if_pos hk]
      exact hgood
    · rw [if_neg hk]
      cases hf : findKey m k with
      | none => exact hgood
      | some w => exact hgood
  · intro m v k m2 hc
    obtain ⟨h6, h22⟩ := Create_ok_key m m2 v k hc
    have hmax : maxLen = 2083 := rfl
    refine ⟨h6, h22, ?_⟩
    unfold Lookup
    rw [if_neg (by omega : ¬k.length > maxLen)]
    cases hf : findKey m2 k with
    | none => simp
    | some w => simp

/-- C10 witness: the key issued for 12345 has length between 6 and 22 and is
accepted by Lookup. -/
theorem KeyStore_invariant_witness :
    minKeySize ≤ (strBytes "gnzLDu").length ∧ (strBytes "gnzLDu").length ≤ 22 ∧
      (Lookup [(strBytes "gnzLDu", strBytes "12345")] (strBytes "gnzLDu")).1 ≠
        Except.error SvcError.ErrMaxSizeExceeded :=
  KeyStore_invariant.2.2.2 [] (strBytes "12345") (strBytes "gnzLDu")
    [(strBytes "gnzLDu", strBytes "12345")]
    (by
      have hd : digestOf (strBytes "12345") = strBytes "gnzLDuqKcGxMNKFokfhOew" := by decide
      rw [Create]
      rw [if_neg (show (List.length (strBytes "12345") > maxLen) = False from by decide).mp]
      rw [hd, probe]
      rfl)
